import Mathlib

/-!
Shallow embedding of `src/main.go` (an image converter: PNG ↔ JPEG with
configurable background color and padding).

Modelling conventions:
* Go `int` arithmetic is modelled as unbounded `Int`; every quantity that
  actually flows through this program (image coordinates, paddings parsed by
  `strconv.Atoi`) is far below 2^63, the only place where 64-bit wrap-around
  could differ.
* A Go `color.Color` interface value is modelled by the 16-bit
  alpha-premultiplied quadruple its `RGBA()` method returns (`Color16`).
* `image.RGBA` pixels (8-bit channels) are modelled by `RGBA`; the pixel
  store is a total function `Int → Int → RGBA` (out-of-bounds reads of a
  fresh `image.RGBA` return the zero color, as in Go).
* File I/O is modelled by an oracle `Env` (does the input open, what does the
  decoder return, does the output path already exist, does encoding succeed)
  plus a trace of I/O events; the conversion functions return both the Go
  error result and the event trace.
-/

namespace Img

/-- The 16-bit alpha-premultiplied RGBA quadruple returned by the `RGBA()`
method of Go's `color.Color` interface.  Channels range over `0 .. 0xffff`. -/
structure Color16 where
  r : Nat
  g : Nat
  b : Nat
  a : Nat
deriving DecidableEq

/-- An 8-bit RGBA pixel of Go's `image.RGBA` / a `color.RGBA` struct literal. -/
structure RGBA where
  r : Nat
  g : Nat
  b : Nat
  a : Nat
deriving DecidableEq

/-- `color.RGBA.RGBA()`: each 8-bit channel `c` becomes `c | c<<8 = c * 0x101`. -/
def rgba8ToColor16 (c : RGBA) : Color16 :=
  ⟨c.r * 0x101, c.g * 0x101, c.b * 0x101, c.a * 0x101⟩

/-- `color.Gray16{y}.RGBA()` returns `(y, y, y, 0xffff)`. -/
def gray16 (y : Nat) : Color16 := ⟨y, y, y, 0xffff⟩

/-- `color.Black = color.Gray16{0}`. -/
def colorBlack : Color16 := gray16 0

/-- `color.White = color.Gray16{0xffff}`. -/
def colorWhite : Color16 := gray16 0xffff

/-- `color.Transparent = color.Alpha16{0}`, whose `RGBA()` is `(0,0,0,0)`. -/
def colorTransparent : Color16 := ⟨0, 0, 0, 0⟩

/-- `color.RGBAModel` conversion / what `draw` stores into an `image.RGBA`:
take the 16-bit `RGBA()` quadruple and keep the high byte of each channel
(`uint8(r >> 8)`).  The `% 256` mirrors the `uint8` cast. -/
def rgbaModel (c : Color16) : RGBA :=
  ⟨c.r / 256 % 256, c.g / 256 % 256, c.b / 256 % 256, c.a / 256 % 256⟩

/-- ASCII case folding, modelling `strings.ToLower` on the ASCII inputs this
program compares against (the five color names and the file extensions). -/
def goToLowerChar (c : Char) : Char :=
  if 'A' ≤ c ∧ c ≤ 'Z' then Char.ofNat (c.toNat + 32) else c

/-- `strings.ToLower`, restricted to ASCII case folding. -/
def goToLower (s : String) : String :=
  String.mk (s.data.map goToLowerChar)

/-- `strings.TrimPrefix(s, "#")`: drop one leading `#` if present. -/
def trimHash (s : String) : String :=
  match s.data with
  | '#' :: rest => String.mk rest
  | _ => s

/-- A `\w` word character as matched by Go's `regexp`: `[0-9A-Za-z_]`. -/
def isWordChar (c : Char) : Bool :=
  c.isAlphanum || c = '_'

/-- All leftmost non-overlapping matches of the regular expression `\w{2}`,
as found by `regexp.FindAllString`: scan left to right, and whenever two
consecutive word characters start at the current position they form the next
match and scanning resumes after them. -/
def findWordPairs : List Char → List (Char × Char)
  | c1 :: c2 :: rest =>
    if isWordChar c1 && isWordChar c2 then (c1, c2) :: findWordPairs rest
    else findWordPairs (c2 :: rest)
  | _ => []

/-- One hexadecimal digit as accepted by `strconv.ParseInt(_, 16, 64)`. -/
def hexDigit (c : Char) : Option Nat :=
  if '0' ≤ c ∧ c ≤ '9' then some (c.toNat - 48)
  else if 'a' ≤ c ∧ c ≤ 'f' then some (c.toNat - 87)
  else if 'A' ≤ c ∧ c ≤ 'F' then some (c.toNat - 55)
  else none

/-- `strconv.ParseInt(tok, 16, 64)` on a two-character word token: both
characters must be hexadecimal digits (an underscore or a letter past `f`
makes the parse fail). -/
def hexBytePair (t : Char × Char) : Option Nat :=
  match hexDigit t.1, hexDigit t.2 with
  | some h, some l => some (h * 16 + l)
  | _, _ => none

/-- Outcome of the color parser.  `parseHexColor` in the source indexes
`colorVals[0]`, `colorVals[1]`, `colorVals[2]` without checking how many
matches `FindAllString` produced, so on short input the Go program panics
with an index-out-of-range runtime error; `panic` records that outcome,
`err` records an ordinary returned error. -/
inductive ColorResult where
  | ok (c : Color16)
  | err
  | panic
deriving DecidableEq

/-- `parseHexColor` from `src/main.go` lines 169-190: strip one optional
leading `#`, collect the first three `\w{2}` tokens, parse each as a
hexadecimal byte, and build `color.RGBA{R, G, B}` (alpha field left at its
zero value).  Accessing a missing token panics; a failed `ParseInt` returns
an error.  The nesting mirrors the source's sequential index/parse order. -/
def parseHexColor (hexStr : String) : ColorResult :=
  match (findWordPairs (trimHash hexStr).data).take 3 with
  | [] => .panic
  | t0 :: rest0 =>
    match hexBytePair t0 with
    | none => .err
    | some r =>
      match rest0 with
      | [] => .panic
      | t1 :: rest1 =>
        match hexBytePair t1 with
        | none => .err
        | some g =>
          match rest1 with
          | [] => .panic
          | t2 :: _ =>
            match hexBytePair t2 with
            | none => .err
            | some b => .ok (rgba8ToColor16 ⟨r, g, b, 0⟩)

/-- `parseBackgroundColor` from `src/main.go` lines 150-165: a switch on
`strings.ToLower(colorStr)` over the five color names, defaulting to
`parseHexColor` on the original string.  Note that `color.RGBA{R: 255}`
leaves the alpha field at 0. -/
def parseBackgroundColor (colorStr : String) : ColorResult :=
  if goToLower colorStr = "black" then .ok colorBlack
  else if goToLower colorStr = "white" then .ok colorWhite
  else if goToLower colorStr = "red" then .ok (rgba8ToColor16 ⟨255, 0, 0, 0⟩)
  else if goToLower colorStr = "green" then .ok (rgba8ToColor16 ⟨0, 255, 0, 0⟩)
  else if goToLower colorStr = "blue" then .ok (rgba8ToColor16 ⟨0, 0, 255, 0⟩)
  else parseHexColor colorStr

/-- `strings.Split(s, ",")`: split on every comma; the empty string yields
a single empty field. -/
def splitCommaAux : List Char → List Char → List String
  | [], acc => [String.mk acc.reverse]
  | c :: cs, acc =>
    if c = ',' then String.mk acc.reverse :: splitCommaAux cs []
    else splitCommaAux cs (c :: acc)

/-- `strings.Split(s, ",")`. -/
def goSplitComma (s : String) : List String :=
  splitCommaAux s.data []

/-- Accumulate base-10 digits; fails on any non-digit character. -/
def decDigitsAux : List Char → Nat → Option Nat
  | [], acc => some acc
  | c :: cs, acc =>
    if c.isDigit then decDigitsAux cs (acc * 10 + (c.toNat - 48)) else none

/-- `strconv.Atoi`: one optional `+`/`-` sign followed by at least one
base-10 digit, rejecting any other character and any value outside the
64-bit signed range. -/
def atoi (s : String) : Option Int :=
  let signDigits : Bool × List Char :=
    match s.data with
    | '+' :: cs => (false, cs)
    | '-' :: cs => (true, cs)
    | cs => (false, cs)
  match signDigits.2 with
  | [] => none
  | ds =>
    match decDigitsAux ds 0 with
    | none => none
    | some n =>
      if signDigits.1 then
        if n ≤ 2 ^ 63 then some (-(n : Int)) else none
      else
        if n < 2 ^ 63 then some (n : Int) else none

/-- Four-sided padding, `type Padding struct` in the source. -/
structure Padding where
  top : Int
  right : Int
  bottom : Int
  left : Int
deriving DecidableEq

/-- Errors of `parsePadding`: a wrapped `Atoi` failure naming the edge being
parsed, or the catch-all `invalid padding` for unsupported token counts. -/
inductive PadError where
  | parseErr (which : String)
  | invalidPadding
deriving DecidableEq

/-- `parsePadding` from `src/main.go` lines 73-148: split on commas, treat
the empty string as zero arguments, and expand 0, 1, 2 or 4 tokens
CSS-style; any other count is `invalid padding`. -/
def parsePadding (paddingStr : String) : Except PadError Padding :=
  let paddings := goSplitComma paddingStr
  let pdArgs := if paddingStr = "" then 0 else paddings.length
  if pdArgs = 0 then .ok ⟨0, 0, 0, 0⟩
  else if pdArgs = 1 then
    match atoi (paddings.getD 0 "") with
    | none => .error (.parseErr "padding")
    | some v => .ok ⟨v, v, v, v⟩
  else if pdArgs = 2 then
    match atoi (paddings.getD 0 "") with
    | none => .error (.parseErr "vertical padding")
    | some ypadding =>
      match atoi (paddings.getD 1 "") with
      | none => .error (.parseErr "horizontal padding")
      | some xpadding => .ok ⟨ypadding, xpadding, ypadding, xpadding⟩
  else if pdArgs = 4 then
    match atoi (paddings.getD 0 "") with
    | none => .error (.parseErr "top padding")
    | some tpadding =>
      match atoi (paddings.getD 1 "") with
      | none => .error (.parseErr "right padding")
      | some rpadding =>
        match atoi (paddings.getD 2 "") with
        | none => .error (.parseErr "bottom padding")
        | some bpadding =>
          match atoi (paddings.getD 3 "") with
          | none => .error (.parseErr "left padding")
          | some lpadding => .ok ⟨tpadding, rpadding, bpadding, lpadding⟩
  else .error .invalidPadding

/-- `filepath.Ext`: scan backwards from the end of the path, stopping at a
path separator; the extension starts at the last dot of the final element,
or is empty if there is none.  The argument is the reversed character list. -/
def filepathExtAux : List Char → List Char → String
  | [], _ => ""
  | c :: rest, acc =>
    if c = '/' then ""
    else if c = '.' then String.mk ('.' :: acc)
    else filepathExtAux rest (c :: acc)

/-- `filepath.Ext(path)`. -/
def filepathExt (path : String) : String :=
  filepathExtAux path.data.reverse []

/-- `detectFormat` from `src/main.go` lines 192-202. -/
def detectFormat (filename : String) : String :=
  if goToLower (filepathExt filename) = ".png" then "png"
  else if goToLower (filepathExt filename) = ".jpeg" ∨
          goToLower (filepathExt filename) = ".jpg" then "jpeg"
  else "unknown"

/-- `image.Point`. -/
structure Point where
  x : Int
  y : Int
deriving DecidableEq

/-- `image.Point.Sub`. -/
def Point.sub (p q : Point) : Point := ⟨p.x - q.x, p.y - q.y⟩

/-- `image.Rectangle` with `Min` inclusive and `Max` exclusive. -/
structure Rect where
  min : Point
  max : Point
deriving DecidableEq

/-- `Rectangle.Dx`. -/
def Rect.dx (r : Rect) : Int := r.max.x - r.min.x

/-- `Rectangle.Dy`. -/
def Rect.dy (r : Rect) : Int := r.max.y - r.min.y

/-- `Rectangle.Empty`. -/
def Rect.empty (r : Rect) : Bool :=
  decide (r.min.x ≥ r.max.x ∨ r.min.y ≥ r.max.y)

/-- Membership of a point in a rectangle (`image.Point.In`). -/
def Rect.contains (r : Rect) (x y : Int) : Bool :=
  decide (r.min.x ≤ x ∧ x < r.max.x ∧ r.min.y ≤ y ∧ y < r.max.y)

/-- `Rectangle.Add`: translate by a point. -/
def Rect.add (r : Rect) (p : Point) : Rect :=
  ⟨⟨r.min.x + p.x, r.min.y + p.y⟩, ⟨r.max.x + p.x, r.max.y + p.y⟩⟩

/-- `Rectangle.Intersect`: componentwise max of the mins and min of the
maxes, normalised to the zero rectangle when the result is empty. -/
def Rect.inter (r s : Rect) : Rect :=
  let minX := if r.min.x < s.min.x then s.min.x else r.min.x
  let minY := if r.min.y < s.min.y then s.min.y else r.min.y
  let maxX := if r.max.x > s.max.x then s.max.x else r.max.x
  let maxY := if r.max.y > s.max.y then s.max.y else r.max.y
  if (Rect.mk ⟨minX, minY⟩ ⟨maxX, maxY⟩).empty then ⟨⟨0, 0⟩, ⟨0, 0⟩⟩
  else ⟨⟨minX, minY⟩, ⟨maxX, maxY⟩⟩

/-- `image.Rect(x0, y0, x1, y1)`: canonicalise by swapping a flipped pair of
coordinates. -/
def imageRect (x0 y0 x1 y1 : Int) : Rect :=
  let p : Int × Int := if x0 > x1 then (x1, x0) else (x0, x1)
  let q : Int × Int := if y0 > y1 then (y1, y0) else (y0, y1)
  ⟨⟨p.1, q.1⟩, ⟨p.2, q.2⟩⟩

/-- A decoded Go image, abstracted by its bounds and by the 16-bit
premultiplied quadruple `At(x, y).RGBA()` of each pixel. -/
structure GoImage where
  bounds : Rect
  pixAt : Int → Int → Color16

/-- An `image.RGBA` destination: bounds plus an 8-bit pixel store, modelled
as a total function (a fresh `image.RGBA` reads as the zero color
everywhere). -/
structure RGBAImage where
  bounds : Rect
  pix : Int → Int → RGBA

/-- `image.NewRGBA`: zero-initialised pixel buffer. -/
def newRGBA (r : Rect) : RGBAImage := ⟨r, fun _ _ => ⟨0, 0, 0, 0⟩⟩

/-- The bounds of `image.NewUniform`: Go declares a uniform image to be
"infinite-sized" but its `Bounds()` method returns
`Rectangle{Point{-1e9, -1e9}, Point{1e9, 1e9}}`, and `draw` clips against
it. -/
def uniformBounds : Rect := ⟨⟨-(10 ^ 9), -(10 ^ 9)⟩, ⟨10 ^ 9, 10 ^ 9⟩⟩

/-- `image.NewUniform(c)` viewed as a source image. -/
def uniform (c : Color16) : GoImage := ⟨uniformBounds, fun _ _ => c⟩

/-- The two Porter-Duff operators used by the source. -/
inductive Op where
  | src
  | over

/-- One byte of the `draw.Over` blend into an `image.RGBA` destination, as
in Go's `image/draw`: with `m = 0xffff`, `a = (m - sa) * 0x101`, the new
byte is `uint8((d*a/m + s16) >> 8)` where `d` is the old destination byte
and `s16`, `sa` are a 16-bit source channel and the source alpha. -/
def overBlendByte (d s16 sa : Nat) : Nat :=
  ((d * ((0xffff - sa) * 0x101) / 0xffff + s16) / 256) % 256

/-- `draw.Over` of a source quadruple onto an 8-bit destination pixel. -/
def overBlend (d : RGBA) (s : Color16) : RGBA :=
  ⟨overBlendByte d.r s.r s.a, overBlendByte d.g s.g s.a,
   overBlendByte d.b s.b s.a, overBlendByte d.a s.a s.a⟩

/-- `draw.Draw(dst, r, src, sp, op)`: clip `r` against the destination
bounds and against the source bounds translated by `r.Min - sp` (Go's
`clip`), then combine each pixel of the clipped rectangle; the source pixel
for destination `(x, y)` is `(sp.x + x - r.Min.x, sp.y + y - r.Min.y)`. -/
def drawDraw (dst : RGBAImage) (r : Rect) (srcI : GoImage) (sp : Point)
    (op : Op) : RGBAImage :=
  let r1 := (r.inter dst.bounds).inter (srcI.bounds.add (r.min.sub sp))
  { dst with
    pix := fun x y =>
      if r1.contains x y then
        let s := srcI.pixAt (sp.x + (x - r.min.x)) (sp.y + (y - r.min.y))
        match op with
        | .src => rgbaModel s
        | .over => overBlend (dst.pix x y) s
      else dst.pix x y }

/-- `type Config struct` from the source. -/
structure Config where
  bgColor : Color16
  padding : Padding

/-- The pure image part of `convertPNGToJPEG` (`src/main.go` lines
230-242): size the canvas, fill it with the configured background color
using `draw.Src`, then draw the decoded source at offset
`(padding.left, padding.top)` using `draw.Over`. -/
def convertPNGToJPEGImage (config : Config) (srcImg : GoImage) : RGBAImage :=
  let bounds := srcImg.bounds
  let newWidth := bounds.dx + config.padding.right + config.padding.left
  let newHeight := bounds.dy + config.padding.top + config.padding.bottom
  let newRect := imageRect 0 0 newWidth newHeight
  let offset : Point := ⟨config.padding.left, config.padding.top⟩
  let destImg := newRGBA newRect
  let bg := uniform config.bgColor
  let step1 := drawDraw destImg newRect bg bounds.min .src
  drawDraw step1 (bounds.add offset) srcImg bounds.min .over

/-- The pure image part of `convertJPEGToPNG` (`src/main.go` lines
271-283): identical shape, except that the fill source is
`image.NewUniform(color.Transparent)` — the configured background color is
never consulted. -/
def convertJPEGToPNGImage (config : Config) (srcImg : GoImage) : RGBAImage :=
  let bounds := srcImg.bounds
  let minWidth := bounds.dx + config.padding.right + config.padding.left
  let minHeight := bounds.dy + config.padding.top + config.padding.bottom
  let newRect := imageRect 0 0 minWidth minHeight
  let offset : Point := ⟨config.padding.left, config.padding.top⟩
  let destImg := newRGBA newRect
  let bg := uniform colorTransparent
  let step1 := drawDraw destImg newRect bg bounds.min .src
  drawDraw step1 (bounds.add offset) srcImg bounds.min .over

/-- I/O oracle for one conversion call: whether `os.Open` on the input
succeeds, what the decoder yields (`none` is a decode error), whether the
output path already exists (making the `O_EXCL` open fail), and whether
encoding succeeds. -/
structure Env where
  inputOpenOk : Bool
  decodeResult : Option GoImage
  outputExists : Bool
  encodeOk : Bool

/-- Observable I/O events of one conversion call.  `closeOut` is in the
vocabulary because releasing the output handle is what the resource
contract demands; the source never performs it. -/
inductive Event where
  | openIn
  | closeIn
  | openOutExcl
  | encodeJPEG (quality : Int)
  | encodePNG
  | closeOut
deriving DecidableEq

/-- Errors surfaced by the conversion functions. -/
inductive ConvError where
  | ioOpenInput
  | decodeError
  | ioOpenOutput
  | encodeError
  | unsupported (inputFormat outputFormat : String)
deriving DecidableEq

/-- Does an event read or write the output path? -/
def touchesOutput : Event → Bool
  | .openOutExcl => true
  | .encodeJPEG _ => true
  | .encodePNG => true
  | .closeOut => true
  | _ => false

/-- `convertPNGToJPEG` (`src/main.go` lines 218-252) with its I/O
sequencing: open input; decode (an error returns without closing the
input); close input; exclusive-create the output (fails when it already
exists); encode as JPEG at quality 50.  Neither exit path closes the output
handle. -/
def convertPNGToJPEGRun (env : Env) (config : Config) :
    Except ConvError RGBAImage × List Event :=
  if env.inputOpenOk = false then (.error .ioOpenInput, [])
  else
    match env.decodeResult with
    | none => (.error .decodeError, [.openIn])
    | some srcImg =>
      if env.outputExists then (.error .ioOpenOutput, [.openIn, .closeIn])
      else if env.encodeOk then
        (.ok (convertPNGToJPEGImage config srcImg),
         [.openIn, .closeIn, .openOutExcl, .encodeJPEG 50])
      else
        (.error .encodeError,
         [.openIn, .closeIn, .openOutExcl, .encodeJPEG 50])

/-- `convertJPEGToPNG` (`src/main.go` lines 254-286) with its I/O
sequencing: open input; decode (an error returns without closing the
input); close input; exclusive-create the output; composite; encode as
PNG.  Neither exit path closes the output handle. -/
def convertJPEGToPNGRun (env : Env) (config : Config) :
    Except ConvError RGBAImage × List Event :=
  if env.inputOpenOk = false then (.error .ioOpenInput, [])
  else
    match env.decodeResult with
    | none => (.error .decodeError, [.openIn])
    | some srcImg =>
      if env.outputExists then (.error .ioOpenOutput, [.openIn, .closeIn])
      else if env.encodeOk then
        (.ok (convertJPEGToPNGImage config srcImg),
         [.openIn, .closeIn, .openOutExcl, .encodePNG])
      else
        (.error .encodeError,
         [.openIn, .closeIn, .openOutExcl, .encodePNG])

/-- `convertImage` (`src/main.go` lines 204-216): detect both formats and
dispatch; any pair other than (png, jpeg) or (jpeg, png) returns
`unsupported conversion: <in> to <out>` without touching either file. -/
def convertImageRun (env : Env) (inputFile outputFile : String)
    (config : Config) : Except ConvError RGBAImage × List Event :=
  if detectFormat inputFile = "png" ∧ detectFormat outputFile = "jpeg" then
    convertPNGToJPEGRun env config
  else if detectFormat inputFile = "jpeg" ∧ detectFormat outputFile = "png" then
    convertJPEGToPNGRun env config
  else
    (.error (.unsupported (detectFormat inputFile) (detectFormat outputFile)), [])

/-! Concrete fixtures used by witnesses and counterexamples. -/

/-- A 1×1 fully opaque white source image at the origin (the bounds every
Go decoder produces start at `(0, 0)`). -/
def srcOne : GoImage := ⟨⟨⟨0, 0⟩, ⟨1, 1⟩⟩, fun _ _ => colorWhite⟩

/-- A 2×2 fully opaque white source image at the origin. -/
def srcTwo : GoImage := ⟨⟨⟨0, 0⟩, ⟨2, 2⟩⟩, fun _ _ => colorWhite⟩

/-- Configuration with the parsed named color `red` and uniform padding 1. -/
def cfgRed : Config := ⟨rgba8ToColor16 ⟨255, 0, 0, 0⟩, ⟨1, 1, 1, 1⟩⟩

/-- Configuration with a white background and a right padding so large that
the canvas outgrows the ±10⁹ bounds of the uniform fill source. -/
def cfgBig : Config := ⟨colorWhite, ⟨0, 10 ^ 9 + 10, 0, 0⟩⟩

/-- Configuration with a negative left padding that makes the computed
canvas width negative. -/
def cfgNeg : Config := ⟨colorWhite, ⟨0, 0, 0, -10⟩⟩

/-- Configuration with a white background and uniform padding 1. -/
def cfgWhite : Config := ⟨colorWhite, ⟨1, 1, 1, 1⟩⟩

/-- Configuration with a black background and top padding 2. -/
def cfgBlackPad : Config := ⟨colorBlack, ⟨2, 0, 0, 0⟩⟩

/-- Environment of a fully successful conversion of `srcOne`. -/
def envOkEx : Env := ⟨true, some srcOne, false, true⟩

/-- Environment where the input opens but decoding fails. -/
def envDecodeFail : Env := ⟨true, none, false, true⟩

/-- Environment where the output path already exists. -/
def envOutExists : Env := ⟨true, some srcOne, true, true⟩

/-! Helper lemmas about rectangle intersection and the composite shape. -/

theorem contains_inter_iff {r s : Rect} {x y : Int} :
    (r.inter s).contains x y = true ↔
      (r.contains x y = true ∧ s.contains x y = true) := by
  simp only [Rect.inter, Rect.contains, Rect.empty, decide_eq_true_eq]
  split_ifs <;> simp_all <;> omega

theorem contains_inter_false_left {r s : Rect} {x y : Int}
    (h : r.contains x y = false) : (r.inter s).contains x y = false := by
  rcases hc : (r.inter s).contains x y
  · rfl
  · exact absurd (contains_inter_iff.mp hc).1 (by simp [h])

theorem contains_inter_true {r s : Rect} {x y : Int}
    (h1 : r.contains x y = true) (h2 : s.contains x y = true) :
    (r.inter s).contains x y = true :=
  contains_inter_iff.mpr ⟨h1, h2⟩

/-- Claim C1 (amended): a string that case-insensitively equals one of the
five color names parses to the documented R, G, B channels, but only
`black` and `white` (which map to `color.Gray16` values) are fully opaque;
`red`, `green` and `blue` are built as `color.RGBA{R: 255}` etc., whose
alpha field is 0, so their 16-bit `RGBA()` alpha is 0, not opaque.  The
quadruples are the 16-bit values reported by the Go color interface. -/
theorem named_color_values (s : String) :
    (goToLower s = "black" →
      parseBackgroundColor s = .ok ⟨0, 0, 0, 0xffff⟩) ∧
    (goToLower s = "white" →
      parseBackgroundColor s = .ok ⟨0xffff, 0xffff, 0xffff, 0xffff⟩) ∧
    (goToLower s = "red" →
      parseBackgroundColor s = .ok ⟨0xffff, 0, 0, 0⟩) ∧
    (goToLower s = "green" →
      parseBackgroundColor s = .ok ⟨0, 0xffff, 0, 0⟩) ∧
    (goToLower s = "blue" →
      parseBackgroundColor s = .ok ⟨0, 0, 0xffff, 0⟩) := by
  refine ⟨?_, ?_, ?_, ?_, ?_⟩ <;>
    (intro h; simp only [parseBackgroundColor]; rw [h];
     simp [colorBlack, colorWhite, gray16, rgba8ToColor16])

/-- Witness for claim C1 at concrete case-varied inputs. -/
theorem named_color_values_witness :
    parseBackgroundColor "Black" = .ok ⟨0, 0, 0, 0xffff⟩ ∧
    parseBackgroundColor "WHITE" = .ok ⟨0xffff, 0xffff, 0xffff, 0xffff⟩ ∧
    parseBackgroundColor "Red" = .ok ⟨0xffff, 0, 0, 0⟩ ∧
    parseBackgroundColor "gReEn" = .ok ⟨0, 0xffff, 0, 0⟩ ∧
    parseBackgroundColor "blue" = .ok ⟨0, 0, 0xffff, 0⟩ :=
  ⟨(named_color_values "Black").1 (by decide),
   (named_color_values "WHITE").2.1 (by decide),
   (named_color_values "Red").2.2.1 (by decide),
   (named_color_values "gReEn").2.2.2.1 (by decide),
   (named_color_values "blue").2.2.2.2 (by decide)⟩

/-- Claim C1 counterexample: `"red"` does not parse to a fully opaque
color; the returned 16-bit quadruple has alpha 0, because
`color.RGBA{R: 255}` leaves the alpha byte at its zero value. -/
theorem named_color_red_alpha_zero :
    parseBackgroundColor "red" = .ok ⟨0xffff, 0, 0, 0⟩ ∧
    parseBackgroundColor "red" ≠ .ok ⟨0xffff, 0, 0, 0xffff⟩ := by
  decide

/-- Claim C2 (amended): for a string that is not a named color the parser
strips one optional leading `#` and scans for two-character word tokens;
if at least three tokens are found and all of the first three are valid
hexadecimal, the result is `color.RGBA{R, G, B}` with alpha 0 (not
opaque); if one of the examined tokens is not valid hexadecimal the parse
fails with a returned error; but when fewer than three tokens are found
(and the ones present parse), the program panics with an
index-out-of-range runtime error instead of returning an
`InvalidColorError`. -/
theorem hex_color_scan (s : String)
    (n1 : goToLower s ≠ "black") (n2 : goToLower s ≠ "white")
    (n3 : goToLower s ≠ "red") (n4 : goToLower s ≠ "green")
    (n5 : goToLower s ≠ "blue") :
    (∀ t0 t1 t2 rest r g b,
      findWordPairs (trimHash s).data = t0 :: t1 :: t2 :: rest →
      hexBytePair t0 = some r → hexBytePair t1 = some g →
      hexBytePair t2 = some b →
      parseBackgroundColor s = .ok (rgba8ToColor16 ⟨r, g, b, 0⟩)) ∧
    (∀ t0 rest,
      findWordPairs (trimHash s).data = t0 :: rest →
      hexBytePair t0 = none → parseBackgroundColor s = .err) ∧
    (∀ t0 t1 rest r,
      findWordPairs (trimHash s).data = t0 :: t1 :: rest →
      hexBytePair t0 = some r → hexBytePair t1 = none →
      parseBackgroundColor s = .err) ∧
    (∀ t0 t1 t2 rest r g,
      findWordPairs (trimHash s).data = t0 :: t1 :: t2 :: rest →
      hexBytePair t0 = some r → hexBytePair t1 = some g →
      hexBytePair t2 = none → parseBackgroundColor s = .err) ∧
    (findWordPairs (trimHash s).data = [] →
      parseBackgroundColor s = .panic) ∧
    (∀ t0 r,
      findWordPairs (trimHash s).data = [t0] →
      hexBytePair t0 = some r → parseBackgroundColor s = .panic) ∧
    (∀ t0 t1 r g,
      findWordPairs (trimHash s).data = [t0, t1] →
      hexBytePair t0 = some r → hexBytePair t1 = some g →
      parseBackgroundColor s = .panic) := by
  have hbg : parseBackgroundColor s = parseHexColor s := by
    simp only [parseBackgroundColor, if_neg n1, if_neg n2, if_neg n3,
      if_neg n4, if_neg n5]
  refine ⟨?_, ?_, ?_, ?_, ?_, ?_, ?_⟩
  · intro t0 t1 t2 rest r g b htoks h0 h1 h2
    rw [hbg]
    simp only [parseHexColor, htoks, List.take_succ_cons, List.take_zero,
      h0, h1, h2]
  · intro t0 rest htoks h0
    rw [hbg]
    rcases rest with _ | ⟨t1, rest1⟩
    · simp only [parseHexColor, htoks, List.take_succ_cons, List.take_nil, h0]
    · rcases rest1 with _ | ⟨t2, rest2⟩ <;>
        simp only [parseHexColor, htoks, List.take_succ_cons, List.take_zero,
          List.take_nil, h0]
  · intro t0 t1 rest r htoks h0 h1
    rw [hbg]
    rcases rest with _ | ⟨t2, rest2⟩ <;>
      simp only [parseHexColor, htoks, List.take_succ_cons, List.take_zero,
        List.take_nil, h0, h1]
  · intro t0 t1 t2 rest r g htoks h0 h1 h2
    rw [hbg]
    simp only [parseHexColor, htoks, List.take_succ_cons, List.take_zero,
      h0, h1, h2]
  · intro htoks
    rw [hbg]
    simp only [parseHexColor, htoks, List.take_nil]
  · intro t0 r htoks h0
    rw [hbg]
    simp only [parseHexColor, htoks, List.take_succ_cons, List.take_nil, h0]
  · intro t0 t1 r g htoks h0 h1
    rw [hbg]
    simp only [parseHexColor, htoks, List.take_succ_cons, List.take_nil,
      h0, h1]

/-- Witness for claim C2: a well-formed hex string with a leading `#` and
trailing junk parses to the three scanned bytes with alpha 0; a lone
invalid token returns an error; a single valid token panics. -/
theorem hex_color_scan_witness :
    parseBackgroundColor "#12fa07xx" =
      .ok (rgba8ToColor16 ⟨0x12, 0xfa, 0x07, 0⟩) ∧
    parseBackgroundColor "zz" = .err ∧
    parseBackgroundColor "ab" = .panic :=
  ⟨(hex_color_scan "#12fa07xx" (by decide) (by decide) (by decide)
      (by decide) (by decide)).1 ('1', '2') ('f', 'a') ('0', '7')
      [('x', 'x')] 0x12 0xfa 0x07 (by decide) (by decide) (by decide)
      (by decide),
   (hex_color_scan "zz" (by decide) (by decide) (by decide) (by decide)
      (by decide)).2.1 ('z', 'z') [] (by decide) (by decide),
   (hex_color_scan "ab" (by decide) (by decide) (by decide) (by decide)
      (by decide)).2.2.2.2.2.1 ('a', 'b') 0xab (by decide) (by decide)⟩

/-- Claim C2 counterexample: on input `"ab"` — not a named color, and
yielding only one two-character token — the parser does not return an
error at all: it panics with an index-out-of-range runtime error when the
source reads `colorVals[1]`. -/
theorem hex_color_short_input_panics :
    parseBackgroundColor "ab" = .panic ∧
    parseBackgroundColor "ab" ≠ .err := by
  decide

/-- A pixel outside the requested draw rectangle is untouched by
`draw.Draw`. -/
theorem drawDraw_pix_out {dst : RGBAImage} {r : Rect} {srcI : GoImage}
    {sp : Point} {op : Op} {x y : Int} (h : r.contains x y = false) :
    (drawDraw dst r srcI sp op).pix x y = dst.pix x y := by
  simp only [drawDraw]
  rw [contains_inter_false_left (contains_inter_false_left h)]
  simp

/-- A pixel inside the draw rectangle, the destination bounds and the
translated source bounds receives the source-replace value under
`draw.Src`. -/
theorem drawDraw_pix_in_src {dst : RGBAImage} {r : Rect} {srcI : GoImage}
    {sp : Point} {x y : Int}
    (h1 : r.contains x y = true) (h2 : dst.bounds.contains x y = true)
    (h3 : (srcI.bounds.add (r.min.sub sp)).contains x y = true) :
    (drawDraw dst r srcI sp .src).pix x y =
      rgbaModel (srcI.pixAt (sp.x + (x - r.min.x)) (sp.y + (y - r.min.y))) := by
  simp only [drawDraw]
  rw [contains_inter_true (contains_inter_true h1 h2) h3]
  simp

/-- In the PNG→JPEG composite, a canvas pixel outside the offset source
rectangle but inside the fill clip region holds exactly the stored
background fill color. -/
theorem composite_pix_outside_png (config : Config) (srcImg : GoImage)
    (x y : Int)
    (hin : (convertPNGToJPEGImage config srcImg).bounds.contains x y = true)
    (hfill : (uniformBounds.add
        ((convertPNGToJPEGImage config srcImg).bounds.min.sub
          srcImg.bounds.min)).contains x y = true)
    (hout : (srcImg.bounds.add
        ⟨config.padding.left, config.padding.top⟩).contains x y = false) :
    (convertPNGToJPEGImage config srcImg).pix x y =
      rgbaModel config.bgColor := by
  simp only [convertPNGToJPEGImage, drawDraw, newRGBA] at hin hfill
  simp only [convertPNGToJPEGImage]
  rw [drawDraw_pix_out hout]
  rw [drawDraw_pix_in_src hin hin hfill]
  rfl

/-- In the JPEG→PNG composite, a canvas pixel outside the offset source
rectangle but inside the fill clip region holds exactly the transparent
fill. -/
theorem composite_pix_outside_jpeg (config : Config) (srcImg : GoImage)
    (x y : Int)
    (hin : (convertJPEGToPNGImage config srcImg).bounds.contains x y = true)
    (hfill : (uniformBounds.add
        ((convertJPEGToPNGImage config srcImg).bounds.min.sub
          srcImg.bounds.min)).contains x y = true)
    (hout : (srcImg.bounds.add
        ⟨config.padding.left, config.padding.top⟩).contains x y = false) :
    (convertJPEGToPNGImage config srcImg).pix x y =
      rgbaModel colorTransparent := by
  simp only [convertJPEGToPNGImage, drawDraw, newRGBA] at hin hfill
  simp only [convertJPEGToPNGImage]
  rw [drawDraw_pix_out hout]
  rw [drawDraw_pix_in_src hin hin hfill]
  rfl

/-- Claim C3 (amended): in the PNG→JPEG direction the pipeline fills the
new canvas with the configured background color by a direct `draw.Src`
overwrite and encodes the result as JPEG at the fixed quality 50; the fill
carries the parsed color's own alpha (0 for `red`/`green`/`blue` and hex
colors, opaque only for `black`/`white`), so it is not in general a fully
opaque fill. -/
theorem png_to_jpeg_fill_and_quality (env : Env) (config : Config)
    (srcImg : GoImage)
    (h1 : env.inputOpenOk = true) (h2 : env.decodeResult = some srcImg)
    (h3 : env.outputExists = false) (h4 : env.encodeOk = true) :
    convertPNGToJPEGRun env config =
      (.ok (convertPNGToJPEGImage config srcImg),
       [.openIn, .closeIn, .openOutExcl, .encodeJPEG 50]) ∧
    (∀ x y,
      (convertPNGToJPEGImage config srcImg).bounds.contains x y = true →
      (uniformBounds.add
          ((convertPNGToJPEGImage config srcImg).bounds.min.sub
            srcImg.bounds.min)).contains x y = true →
      (srcImg.bounds.add
          ⟨config.padding.left, config.padding.top⟩).contains x y = false →
      (convertPNGToJPEGImage config srcImg).pix x y =
        rgbaModel config.bgColor) := by
  constructor
  · rcases env with ⟨io, dec, ex, enc⟩
    simp_all [convertPNGToJPEGRun]
  · intro x y hin hfill hout
    exact composite_pix_outside_png config srcImg x y hin hfill hout

/-- Witness for claim C3 at a successful concrete conversion. -/
theorem png_to_jpeg_fill_and_quality_witness :
    convertPNGToJPEGRun envOkEx cfgWhite =
      (.ok (convertPNGToJPEGImage cfgWhite srcOne),
       [.openIn, .closeIn, .openOutExcl, .encodeJPEG 50]) ∧
    (convertPNGToJPEGImage cfgWhite srcOne).pix 0 0 =
      rgbaModel cfgWhite.bgColor :=
  ⟨(png_to_jpeg_fill_and_quality envOkEx cfgWhite srcOne rfl rfl rfl rfl).1,
   (png_to_jpeg_fill_and_quality envOkEx cfgWhite srcOne rfl rfl rfl rfl).2
     0 0 (by decide) (by decide) (by decide)⟩

/-- Claim C3 counterexample: with the parsed background `red` the fill is
not fully opaque — the padding pixel `(0, 0)` of the composited canvas
(inside the canvas, outside the offset source rectangle) has alpha 0. -/
theorem png_to_jpeg_fill_alpha_zero :
    parseBackgroundColor "red" = .ok cfgRed.bgColor ∧
    (convertPNGToJPEGImage cfgRed srcOne).bounds.contains 0 0 = true ∧
    (srcOne.bounds.add
        ⟨cfgRed.padding.left, cfgRed.padding.top⟩).contains 0 0 = false ∧
    ((convertPNGToJPEGImage cfgRed srcOne).pix 0 0).a = 0 := by
  decide

/-- Claim C4 (amended): in both directions the pipeline first fills the
canvas with the fill color by direct source-replace overwrite and then
draws the source at offset `(padding.left, padding.top)` with `draw.Over`;
every canvas pixel outside the offset source rectangle that also lies in
the fill clip region (the ±10⁹ bounds that `image.NewUniform` reports,
translated by `canvas.Min - source.Min`; always satisfied by canvases
under a billion pixels per side) equals the pure fill color — the
configured background for PNG→JPEG, transparent for JPEG→PNG.  Canvas
pixels beyond that clip region keep the zero initialisation instead. -/
theorem fill_then_draw_outside (config : Config) (srcImg : GoImage)
    (x y : Int)
    (hin : (convertPNGToJPEGImage config srcImg).bounds.contains x y = true)
    (hfill : (uniformBounds.add
        ((convertPNGToJPEGImage config srcImg).bounds.min.sub
          srcImg.bounds.min)).contains x y = true)
    (hout : (srcImg.bounds.add
        ⟨config.padding.left, config.padding.top⟩).contains x y = false) :
    (convertPNGToJPEGImage config srcImg).pix x y =
      rgbaModel config.bgColor ∧
    (convertJPEGToPNGImage config srcImg).pix x y =
      rgbaModel colorTransparent :=
  ⟨composite_pix_outside_png config srcImg x y hin hfill hout,
   composite_pix_outside_jpeg config srcImg x y hin hfill hout⟩

/-- Witness for claim C4: with a black background and top padding 2, the
padding pixel `(0, 0)` is the pure fill in both directions. -/
theorem fill_then_draw_outside_witness :
    (convertPNGToJPEGImage cfgBlackPad srcOne).pix 0 0 =
      rgbaModel cfgBlackPad.bgColor ∧
    (convertJPEGToPNGImage cfgBlackPad srcOne).pix 0 0 =
      rgbaModel colorTransparent :=
  fill_then_draw_outside cfgBlackPad srcOne 0 0
    (by decide) (by decide) (by decide)

/-- Claim C4 counterexample: with a right padding of 10⁹ + 10 the canvas
outgrows the ±10⁹ bounds of the uniform fill source, and the canvas pixel
`(10⁹ + 5, 0)` — inside the canvas and outside the offset source
rectangle — does not hold the fill color: the fill was clipped there and
the pixel keeps the zero initialisation. -/
theorem fill_clip_boundary_example :
    (convertPNGToJPEGImage cfgBig srcOne).bounds.contains (10 ^ 9 + 5) 0
      = true ∧
    (srcOne.bounds.add
        ⟨cfgBig.padding.left, cfgBig.padding.top⟩).contains (10 ^ 9 + 5) 0
      = false ∧
    (convertPNGToJPEGImage cfgBig srcOne).pix (10 ^ 9 + 5) 0 ≠
      rgbaModel cfgBig.bgColor := by
  decide

/-- Claim C5: the JPEG→PNG direction never consults the configured
background color: two configurations with equal padding produce identical
composited canvases, and every pixel outside the offset source rectangle
(in particular every border pixel) has alpha 0 because the fill is
`color.Transparent`. -/
theorem jpeg_to_png_ignores_bg (c1 c2 : Config) (srcImg : GoImage)
    (hpad : c1.padding = c2.padding) :
    convertJPEGToPNGImage c1 srcImg = convertJPEGToPNGImage c2 srcImg ∧
    (∀ x y,
      (srcImg.bounds.add
          ⟨c1.padding.left, c1.padding.top⟩).contains x y = false →
      ((convertJPEGToPNGImage c1 srcImg).pix x y).a = 0) := by
  constructor
  · simp only [convertJPEGToPNGImage, hpad]
  · intro x y hout
    simp only [convertJPEGToPNGImage]
    rw [drawDraw_pix_out hout]
    simp only [drawDraw, newRGBA]
    split <;> simp [uniform, rgbaModel, colorTransparent]

/-- Witness for claim C5: red and white backgrounds with the same padding
give the same PNG canvas, whose border pixel `(0, 0)` is transparent. -/
theorem jpeg_to_png_ignores_bg_witness :
    convertJPEGToPNGImage cfgRed srcOne =
      convertJPEGToPNGImage cfgWhite srcOne ∧
    ((convertJPEGToPNGImage cfgRed srcOne).pix 0 0).a = 0 :=
  ⟨(jpeg_to_png_ignores_bg cfgRed cfgWhite srcOne rfl).1,
   (jpeg_to_png_ignores_bg cfgRed cfgWhite srcOne rfl).2 0 0 (by decide)⟩

theorem imageRect_zero_dims (w h : Int) :
    (imageRect 0 0 w h).dx = (w.natAbs : Int) ∧
    (imageRect 0 0 w h).dy = (h.natAbs : Int) := by
  unfold imageRect Rect.dx Rect.dy
  constructor <;> split_ifs <;> dsimp only <;> omega

/-- Claim C6 (amended): in both directions the canvas is built as
`image.Rect(0, 0, srcW + left + right, srcH + top + bottom)`; its width
and height equal those sums whenever they are non-negative, and in general
equal their absolute values, because `image.Rect` canonicalises a flipped
rectangle by swapping the coordinates. -/
theorem canvas_dimensions (config : Config) (srcImg : GoImage) :
    (convertPNGToJPEGImage config srcImg).bounds.dx =
      ((srcImg.bounds.dx + config.padding.right +
        config.padding.left).natAbs : Int) ∧
    (convertPNGToJPEGImage config srcImg).bounds.dy =
      ((srcImg.bounds.dy + config.padding.top +
        config.padding.bottom).natAbs : Int) ∧
    (convertJPEGToPNGImage config srcImg).bounds.dx =
      ((srcImg.bounds.dx + config.padding.right +
        config.padding.left).natAbs : Int) ∧
    (convertJPEGToPNGImage config srcImg).bounds.dy =
      ((srcImg.bounds.dy + config.padding.top +
        config.padding.bottom).natAbs : Int) := by
  refine ⟨?_, ?_, ?_, ?_⟩ <;>
      simp only [convertPNGToJPEGImage, convertJPEGToPNGImage, drawDraw,
        newRGBA]
  · exact (imageRect_zero_dims _ _).1
  · exact (imageRect_zero_dims _ _).2
  · exact (imageRect_zero_dims _ _).1
  · exact (imageRect_zero_dims _ _).2

/-- Claim C6 counterexample: a 2×2 source with left padding -10 yields the
computed width 2 + 0 + (-10) = -8, but the actual canvas is 8 pixels wide:
`image.Rect` swaps the flipped pair instead of keeping a negative width. -/
theorem canvas_negative_width_example :
    (convertPNGToJPEGImage cfgNeg srcTwo).bounds.dx ≠
      srcTwo.bounds.dx + cfgNeg.padding.left + cfgNeg.padding.right := by
  decide

theorem splitCommaAux_ne_nil : ∀ (cs acc : List Char), splitCommaAux cs acc ≠ []
  | [], _ => by simp [splitCommaAux]
  | c :: cs, acc => by
    simp only [splitCommaAux]
    split_ifs
    · simp
    · exact splitCommaAux_ne_nil cs (c :: acc)

/-- Claim C7: the padding parser maps the empty string to all-zero
padding; one integer token to all four edges; two tokens to
top = bottom = first and right = left = second; four tokens to
(top, right, bottom, left) in CSS order; and any other token count to the
`invalid padding` error. -/
theorem parsePadding_spec :
    parsePadding "" = .ok ⟨0, 0, 0, 0⟩ ∧
    (∀ s t v, goSplitComma s = [t] → atoi t = some v →
      parsePadding s = .ok ⟨v, v, v, v⟩) ∧
    (∀ s t1 t2 v1 v2, goSplitComma s = [t1, t2] →
      atoi t1 = some v1 → atoi t2 = some v2 →
      parsePadding s = .ok ⟨v1, v2, v1, v2⟩) ∧
    (∀ s t1 t2 t3 t4 v1 v2 v3 v4, goSplitComma s = [t1, t2, t3, t4] →
      atoi t1 = some v1 → atoi t2 = some v2 → atoi t3 = some v3 →
      atoi t4 = some v4 → parsePadding s = .ok ⟨v1, v2, v3, v4⟩) ∧
    (∀ s, s ≠ "" → (goSplitComma s).length ≠ 1 →
      (goSplitComma s).length ≠ 2 → (goSplitComma s).length ≠ 4 →
      parsePadding s = .error .invalidPadding) := by
  have hne : ∀ s : String, s = "" → goSplitComma s = [""] := by
    intro s hs; subst hs; rfl
  refine ⟨rfl, ?_, ?_, ?_, ?_⟩
  · intro s t v hsplit hatoi
    have hs : s ≠ "" := by
      intro he
      rw [hne s he] at hsplit
      obtain rfl : t = "" := by simpa using hsplit.symm
      simp [atoi] at hatoi
    simp [parsePadding, hsplit, hs, hatoi]
  · intro s t1 t2 v1 v2 hsplit h1 h2
    have hs : s ≠ "" := by
      intro he; rw [hne s he] at hsplit; simp at hsplit
    simp [parsePadding, hsplit, hs, h1, h2]
  · intro s t1 t2 t3 t4 v1 v2 v3 v4 hsplit h1 h2 h3 h4
    have hs : s ≠ "" := by
      intro he; rw [hne s he] at hsplit; simp at hsplit
    simp [parsePadding, hsplit, hs, h1, h2, h3, h4]
  · intro s hs h1 h2 h4
    have h0 : (goSplitComma s).length ≠ 0 := by
      intro hlen
      exact splitCommaAux_ne_nil s.data [] (List.length_eq_zero.mp hlen)
    simp [parsePadding, hs, h0, h1, h2, h4]

/-- Witness for claim C7 at concrete specs of each shape. -/
theorem parsePadding_spec_witness :
    parsePadding "" = .ok ⟨0, 0, 0, 0⟩ ∧
    parsePadding "7" = .ok ⟨7, 7, 7, 7⟩ ∧
    parsePadding "5,10" = .ok ⟨5, 10, 5, 10⟩ ∧
    parsePadding "1,2,3,-4" = .ok ⟨1, 2, 3, -4⟩ ∧
    parsePadding "1,2,3" = .error .invalidPadding :=
  ⟨parsePadding_spec.1,
   parsePadding_spec.2.1 "7" "7" 7 (by decide) (by decide),
   parsePadding_spec.2.2.1 "5,10" "5" "10" 5 10 (by decide) (by decide)
     (by decide),
   parsePadding_spec.2.2.2.1 "1,2,3,-4" "1" "2" "3" "-4" 1 2 3 (-4)
     (by decide) (by decide) (by decide) (by decide) (by decide),
   parsePadding_spec.2.2.2.2 "1,2,3" (by decide) (by decide) (by decide)
     (by decide)⟩

/-- Claim C8: for any pair of paths whose detected formats are not exactly
(png, jpeg) or (jpeg, png), `convertImage` fails with the unsupported
conversion error naming both detected formats, with an empty I/O trace —
so in particular before any file I/O on the output path. -/
theorem unsupported_pairs (env : Env) (inputFile outputFile : String)
    (config : Config)
    (h : ¬ ((detectFormat inputFile = "png" ∧
             detectFormat outputFile = "jpeg") ∨
            (detectFormat inputFile = "jpeg" ∧
             detectFormat outputFile = "png"))) :
    convertImageRun env inputFile outputFile config =
      (.error (.unsupported (detectFormat inputFile)
        (detectFormat outputFile)), []) := by
  have h1 : ¬ (detectFormat inputFile = "png" ∧
      detectFormat outputFile = "jpeg") := fun hc => h (Or.inl hc)
  have h2 : ¬ (detectFormat inputFile = "jpeg" ∧
      detectFormat outputFile = "png") := fun hc => h (Or.inr hc)
  simp only [convertImageRun, if_neg h1, if_neg h2]

/-- Witness for claim C8: a same-format pair fails with the error naming
both formats and performs no I/O at all. -/
theorem unsupported_pairs_witness :
    convertImageRun envOkEx "a.png" "b.png" cfgWhite =
      (.error (.unsupported "png" "png"), []) :=
  unsupported_pairs envOkEx "a.png" "b.png" cfgWhite (by decide)

/-- Claim C9: when the output path already exists, no event of either
conversion direction touches the output path, and once the pipeline
reaches the exclusive-create open (input opened and decoded), the
conversion fails with exactly the I/O error of that open, having only
opened and closed the input. -/
theorem output_exists_untouched (env : Env) (config : Config)
    (hex : env.outputExists = true) :
    (∀ e ∈ (convertPNGToJPEGRun env config).2, touchesOutput e = false) ∧
    (∀ e ∈ (convertJPEGToPNGRun env config).2, touchesOutput e = false) ∧
    (∀ srcImg, env.inputOpenOk = true → env.decodeResult = some srcImg →
      convertPNGToJPEGRun env config =
        (.error .ioOpenOutput, [.openIn, .closeIn]) ∧
      convertJPEGToPNGRun env config =
        (.error .ioOpenOutput, [.openIn, .closeIn])) := by
  rcases env with ⟨io, dec, ex, enc⟩
  simp only at hex
  subst hex
  refine ⟨?_, ?_, ?_⟩
  · cases io <;> rcases dec with _ | img <;>
      simp [convertPNGToJPEGRun, touchesOutput]
  · cases io <;> rcases dec with _ | img <;>
      simp [convertJPEGToPNGRun, touchesOutput]
  · intro srcImg hio hdec
    simp only at hio hdec
    subst hio; subst hdec
    exact ⟨rfl, rfl⟩

/-- Witness for claim C9 at a concrete environment whose output path
exists. -/
theorem output_exists_untouched_witness :
    convertPNGToJPEGRun envOutExists cfgWhite =
      (.error .ioOpenOutput, [.openIn, .closeIn]) ∧
    convertJPEGToPNGRun envOutExists cfgWhite =
      (.error .ioOpenOutput, [.openIn, .closeIn]) :=
  ⟨((output_exists_untouched envOutExists cfgWhite rfl).2.2
      srcOne rfl rfl).1,
   ((output_exists_untouched envOutExists cfgWhite rfl).2.2
      srcOne rfl rfl).2⟩

/-- Claim C10 (refuting the code, supporting the spec): the conversion
functions do not release both handles on every exit path.  In a fully
successful conversion of either direction the output handle is opened but
never closed, and when decoding fails the input handle is left open as
well (the trace is exactly `[openIn]`). -/
theorem file_handles_not_closed :
    (convertPNGToJPEGRun envOkEx cfgWhite).2 =
      [.openIn, .closeIn, .openOutExcl, .encodeJPEG 50] ∧
    Event.closeOut ∉ (convertPNGToJPEGRun envOkEx cfgWhite).2 ∧
    (convertJPEGToPNGRun envOkEx cfgWhite).2 =
      [.openIn, .closeIn, .openOutExcl, .encodePNG] ∧
    Event.closeOut ∉ (convertJPEGToPNGRun envOkEx cfgWhite).2 ∧
    (convertPNGToJPEGRun envDecodeFail cfgWhite).2 = [.openIn] ∧
    Event.closeIn ∉ (convertPNGToJPEGRun envDecodeFail cfgWhite).2 := by
  decide

end Img
